import Mathlib

/-!
Verification development for the withings-mcp authentication bridge.

This file gives a shallow embedding, in Lean 4, of the security-critical
core of the repository: the OAuth broker endpoints (`src/auth/oauth.ts`,
Supabase variant), the encrypted token vault (`src/auth/token-store.ts`,
Supabase variant, and `src/utils/encryption.ts`), the rate limiter
(`src/server/rate-limiter.ts` and migration `004_atomic_rate_limit.sql`),
the MCP session endpoints (`src/server/mcp-endpoints.ts`), and the
Withings request/refresh path (`src/withings-api.ts`).

Byte strings are `List Nat` with each element `< 256`; machine words are
`Nat` reduced mod `2 ^ 32` where the source relies on 32-bit arithmetic.
Stores (Supabase tables, in-memory maps) are association lists; each
store operation of the source becomes one pure state transition.
Library crypto (AES-256-GCM, PBKDF2) is a parameter structure with the
authenticated-encryption contract as hypotheses; SHA-256 and base64 are
implemented concretely since PKCE validation computes them directly.
-/

namespace WithingsMcp

/-! ## Bytes, UTF-8, SHA-256, base64

These model `node:crypto`'s `createHash('sha256')`, Node `Buffer`
base64 conversion, and UTF-8 string encoding, all used by the PKCE
check in `createOAuthRouter` and by the encryption utility.
-/

/-- Truncate to a 32-bit word. -/
def w32 (n : Nat) : Nat := n % 4294967296

/-- 32-bit rotate right. -/
def rotr32 (n x : Nat) : Nat :=
  w32 (Nat.lor (Nat.shiftRight x n) (Nat.shiftLeft x (32 - n)))

/-- Big-endian byte serialization of `n` into `k` bytes. -/
def toBytesBE : Nat → Nat → List Nat
  | 0, _ => []
  | k + 1, n => toBytesBE k (n / 256) ++ [n % 256]

/-- UTF-8 encoding of one character (code point to bytes). -/
def utf8EncodeChar (c : Char) : List Nat :=
  let n := c.toNat
  if n < 128 then [n]
  else if n < 2048 then [192 + n / 64, 128 + n % 64]
  else if n < 65536 then [224 + n / 4096, 128 + (n / 64) % 64, 128 + n % 64]
  else [240 + n / 262144, 128 + (n / 4096) % 64, 128 + (n / 64) % 64, 128 + n % 64]

/-- UTF-8 encoding of a string, as Node applies to `update(buffer)`
with a string argument ("utf8" is the default input encoding). -/
def utf8Encode (s : String) : List Nat := (s.data.map utf8EncodeChar).flatten

/-- Unicode replacement character, U+FFFD. -/
def replChar : Char := Char.ofNat 65533

/-- UTF-8 decoding (as `Buffer.toString("utf8")`); malformed sequences
decode to the replacement character. Fuel-driven (one unit per decoded
character) so the definition reduces definitionally. -/
def utf8DecodeF : Nat → List Nat → List Char
  | 0, _ => []
  | _, [] => []
  | fuel + 1, b :: rest =>
    if b < 128 then Char.ofNat b :: utf8DecodeF fuel rest
    else if 192 ≤ b ∧ b < 224 then
      match rest with
      | b2 :: rest2 =>
        if 128 ≤ b2 ∧ b2 < 192 then
          Char.ofNat ((b - 192) * 64 + (b2 - 128)) :: utf8DecodeF fuel rest2
        else replChar :: utf8DecodeF fuel rest
      | [] => [replChar]
    else if 224 ≤ b ∧ b < 240 then
      match rest with
      | b2 :: b3 :: rest3 =>
        if (128 ≤ b2 ∧ b2 < 192) ∧ (128 ≤ b3 ∧ b3 < 192) then
          Char.ofNat ((b - 224) * 4096 + (b2 - 128) * 64 + (b3 - 128)) :: utf8DecodeF fuel rest3
        else replChar :: utf8DecodeF fuel rest
      | _ => [replChar]
    else if 240 ≤ b ∧ b < 248 then
      match rest with
      | b2 :: b3 :: b4 :: rest4 =>
        if ((128 ≤ b2 ∧ b2 < 192) ∧ (128 ≤ b3 ∧ b3 < 192)) ∧ (128 ≤ b4 ∧ b4 < 192) then
          Char.ofNat ((b - 240) * 262144 + (b2 - 128) * 4096 + (b3 - 128) * 64 + (b4 - 128))
            :: utf8DecodeF fuel rest4
        else replChar :: utf8DecodeF fuel rest
      | _ => [replChar]
    else replChar :: utf8DecodeF fuel rest

/-- UTF-8 decoding to a string. -/
def utf8Decode (bytes : List Nat) : String :=
  String.mk (utf8DecodeF (bytes.length + 1) bytes)

/-- SHA-256 round constants. -/
def sha256K : List Nat :=
  [1116352408, 1899447441, 3049323471, 3921009573, 961987163, 1508970993,
   2453635748, 2870763221, 3624381080, 310598401, 607225278, 1426881987,
   1925078388, 2162078206, 2614888103, 3248222580, 3835390401, 4022224774,
   264347078, 604807628, 770255983, 1249150122, 1555081692, 1996064986,
   2554220882, 2821834349, 2952996808, 3210313671, 3336571891, 3584528711,
   113926993, 338241895, 666307205, 773529912, 1294757372, 1396182291,
   1695183700, 1986661051, 2177026350, 2456956037, 2730485921, 2820302411,
   3259730800, 3345764771, 3516065817, 3600352804, 4094571909, 275423344,
   430227734, 506948616, 659060556, 883997877, 958139571, 1322822218,
   1537002063, 1747873779, 1955562222, 2024104815, 2227730452, 2361852424,
   2428436474, 2756734187, 3204031479, 3329325298]

/-- SHA-256 initial hash state. -/
def sha256H0 : List Nat :=
  [1779033703, 3144134277, 1013904242, 2773480762,
   1359893119, 2600822924, 528734635, 1541459225]

/-- SHA-256 padding: append `0x80`, zeros, and the 64-bit big-endian
bit length so the total length is a multiple of 64 bytes. -/
def sha256pad (msg : List Nat) : List Nat :=
  let padZeros := (55 + 64 - msg.length % 64) % 64
  msg ++ [128] ++ List.replicate padZeros 0 ++ toBytesBE 8 (msg.length * 8)

/-- Group bytes into big-endian 32-bit words. -/
def bytesToWords : List Nat → List Nat
  | a :: b :: c :: d :: rest =>
    (a * 16777216 + b * 65536 + c * 256 + d) :: bytesToWords rest
  | _ => []

def smallSigma0 (x : Nat) : Nat :=
  Nat.xor (Nat.xor (rotr32 7 x) (rotr32 18 x)) (Nat.shiftRight x 3)

def smallSigma1 (x : Nat) : Nat :=
  Nat.xor (Nat.xor (rotr32 17 x) (rotr32 19 x)) (Nat.shiftRight x 10)

def bigSigma0 (x : Nat) : Nat :=
  Nat.xor (Nat.xor (rotr32 2 x) (rotr32 13 x)) (rotr32 22 x)

def bigSigma1 (x : Nat) : Nat :=
  Nat.xor (Nat.xor (rotr32 6 x) (rotr32 11 x)) (rotr32 25 x)

def chF (x y z : Nat) : Nat :=
  Nat.xor (Nat.land x y) (Nat.land (Nat.xor 4294967295 x) z)

def majF (x y z : Nat) : Nat :=
  Nat.xor (Nat.xor (Nat.land x y) (Nat.land x z)) (Nat.land y z)

/-- Extend the 16-word message schedule by `fuel` further words. -/
def extendW : List Nat → Nat → List Nat
  | w, 0 => w
  | w, n + 1 =>
    let i := w.length
    let nw := w32 (smallSigma1 (w.getD (i - 2) 0) + w.getD (i - 7) 0 +
                   smallSigma0 (w.getD (i - 15) 0) + w.getD (i - 16) 0)
    extendW (w ++ [nw]) n

/-- One SHA-256 compression round on the 8-word working state. -/
def sha256round (st : List Nat) (kw : Nat × Nat) : List Nat :=
  match st with
  | [a, b, c, d, e, f, g, h] =>
    let t1 := w32 (h + bigSigma1 e + chF e f g + kw.1 + kw.2)
    let t2 := w32 (bigSigma0 a + majF a b c)
    [w32 (t1 + t2), a, b, c, w32 (d + t1), e, f, g]
  | other => other

/-- Process one 64-byte block. -/
def sha256block (h : List Nat) (block : List Nat) : List Nat :=
  let w := extendW (bytesToWords block) 48
  let st := (sha256K.zip w).foldl sha256round h
  (h.zip st).map (fun p => w32 (p.1 + p.2))

/-- Split a byte list into 64-byte chunks (fuel-driven so it reduces
definitionally). -/
def chunks64F : Nat → List Nat → List (List Nat)
  | 0, _ => []
  | _, [] => []
  | fuel + 1, l => l.take 64 :: chunks64F fuel (l.drop 64)

def chunks64 (l : List Nat) : List (List Nat) := chunks64F (l.length + 1) l

/-- SHA-256 digest (32 bytes) of a byte message; models
`crypto.createHash('sha256').update(buffer).digest()`. -/
def sha256 (msg : List Nat) : List Nat :=
  (((chunks64 (sha256pad msg)).foldl sha256block sha256H0).map (toBytesBE 4)).flatten

/-- The base64 alphabet used by `Buffer.toString('base64')`. -/
def b64Alphabet : List Char :=
  "ABCDEFGHIJKLMNOPQRSTUVWXYZabcdefghijklmnopqrstuvwxyz0123456789+/".data

def b64Char (n : Nat) : Char := b64Alphabet.getD n 'A'

/-- Standard base64 encoding with padding, grouped 3 bytes to 4 chars. -/
def base64Chars : List Nat → List Char
  | [] => []
  | [a] => [b64Char (a / 4), b64Char ((a % 4) * 16), '=', '=']
  | [a, b] => [b64Char (a / 4), b64Char ((a % 4) * 16 + b / 16), b64Char ((b % 16) * 4), '=']
  | a :: b :: c :: rest =>
    b64Char (a / 4) :: b64Char ((a % 4) * 16 + b / 16) ::
    b64Char ((b % 16) * 4 + c / 64) :: b64Char (c % 64) :: base64Chars rest

/-- `Buffer.toString('base64')`. -/
def base64Encode (bytes : List Nat) : String := String.mk (base64Chars bytes)

def b64UrlChar (c : Char) : Char :=
  if c = '+' then '-' else if c = '/' then '_' else c

/-- `base64URLEncode` from `src/auth/oauth.ts`: base64, then
`+`→`-`, `/`→`_`, and `=` stripped. -/
def base64URLEncode (b : List Nat) : String :=
  String.mk (((base64Chars b).map b64UrlChar).filter (fun c => c ≠ '='))

def b64Val (c : Char) : Option Nat :=
  let i := b64Alphabet.indexOf c
  if i < 64 then some i else none

/-- Base64 decoding (as `Buffer.from(s, 'base64')` on well-formed
input), grouped 4 chars to 3 bytes with `=` padding. -/
def base64DecodeChars : List Char → List Nat
  | a :: b :: c :: d :: rest =>
    (match b64Val a, b64Val b with
     | some va, some vb =>
       let b1 := va * 4 + vb / 16
       if c = '=' then [b1]
       else
         match b64Val c with
         | some vc =>
           let b2 := (vb % 16) * 16 + vc / 4
           if d = '=' then [b1, b2]
           else
             match b64Val d with
             | some vd => b1 :: b2 :: ((vc % 4) * 64 + vd) :: base64DecodeChars rest
             | none => [b1, b2]
         | none => [b1]
     | _, _ => [])
  | _ => []

def base64Decode (s : String) : List Nat := base64DecodeChars s.data

/-- SHA-256 sanity check against the standard "abc" test vector. -/
theorem sha256_abc :
    sha256 (utf8Encode "abc") =
      [0xba, 0x78, 0x16, 0xbf, 0x8f, 0x01, 0xcf, 0xea,
       0x41, 0x41, 0x40, 0xde, 0x5d, 0xae, 0x22, 0x23,
       0xb0, 0x03, 0x61, 0xa3, 0x96, 0x17, 0x7a, 0x9c,
       0xb4, 0x10, 0xff, 0x61, 0xf2, 0x00, 0x15, 0xad] := by decide

/-- PKCE sanity check against the RFC 7636 appendix B test vector. -/
theorem pkce_rfc7636_vector :
    base64URLEncode (sha256 (utf8Encode "dBjftJeZ4CVP-mB92K27uhbUJU1p1r_wW1gFWFOEjXk")) =
      "E9Melhoa2OwvFrEMTJguCHaoeK1t8URWbuGJSstw-cM" := by decide

/-- Base64 sanity check. -/
theorem base64_man : base64Encode (utf8Encode "Man") = "TWFu" := by decide

/-! ## JavaScript truthiness for optional string parameters

Request parameters read with `c.req.query(...)` / `parseBody()` are
`string | undefined`; the handlers branch on JS truthiness, under which
both `undefined` and the empty string are falsy.
-/

def jsFalsy : Option String → Bool
  | none => true
  | some s => s = ""

def jsTruthy (o : Option String) : Bool := !(jsFalsy o)

/-! ## OAuth broker store (`OAuthStore`, `src/auth/oauth.ts`, Supabase variant)

Each Supabase table is an association list of rows; timestamps are
`Int` milliseconds since the epoch (JS `Date.now()`).  A `.single()`
query yields a row exactly when precisely one row matches, matching
PostgREST semantics.
-/

/-- `AuthCode` as returned by `consumeAuthCode` (decrypted view). -/
structure AuthCode where
  withingsCode : String
  clientId : Option String
  redirectUri : String
  codeChallenge : Option String
deriving DecidableEq, Repr

/-- Row of the `auth_codes` table. `withingsCode` holds the stored
(encrypted) value; `expiresAt` is the row TTL deadline. -/
structure AuthCodeRow where
  code : String
  withingsCode : String
  clientId : Option String
  redirectUri : String
  codeChallenge : Option String
  expiresAt : Int
deriving DecidableEq, Repr

/-- Row of the `registered_clients` table. -/
structure RegisteredClient where
  clientId : String
  clientSecret : Option String
  redirectUris : List String
deriving DecidableEq, Repr

/-- `OAuthSession` payload stored between authorize and callback. -/
structure OAuthSession where
  state : String
  codeChallenge : Option String
  codeChallengeMethod : Option String
  redirectUri : String
  clientId : Option String
deriving DecidableEq, Repr

/-- Row of the `oauth_sessions` table. -/
structure OAuthSessionRow where
  sessionId : String
  session : OAuthSession
  expiresAt : Int
deriving DecidableEq, Repr

/-- Session/auth-code TTL: 10 minutes in milliseconds. -/
def sessionTTLms : Int := 600000

/-- A row of `auth_codes` is matched by the consume query when its key
equals the presented code and its TTL has not passed
(`.eq("code", code).gt("expires_at", now)`). -/
def authCodeLive (now : Int) (code : Option String) (r : AuthCodeRow) : Bool :=
  code = some r.code && now < r.expiresAt

/-- `OAuthStore.consumeAuthCode`: one atomic delete-and-return
(`delete().eq("code", c).gt("expires_at", now).select().single()`).
The matching rows are removed and the deleted row is returned (with the
stored Withings code decrypted via `dec`); with no (or more than one)
match the operation returns `none`. -/
def consumeAuthCode (dec : String → String) (now : Int)
    (st : List AuthCodeRow) (code : Option String) :
    List AuthCodeRow × Option AuthCode :=
  let remaining := st.filter (fun r => !(authCodeLive now code r))
  match st.filter (authCodeLive now code) with
  | [r] => (remaining, some ⟨dec r.withingsCode, r.clientId, r.redirectUri, r.codeChallenge⟩)
  | _ => (remaining, none)

/-- `OAuthStore.storeAuthCode`: insert a row with a 10-minute TTL; the
Withings code is encrypted (`encrypt(data.withingsCode)`) before
storage and empty optionals are stored as NULL (`x || null`). -/
def storeAuthCode (enc : String → String) (now : Int) (st : List AuthCodeRow)
    (code : String) (data : AuthCode) : List AuthCodeRow :=
  st ++ [{ code := code
           withingsCode := enc data.withingsCode
           clientId := data.clientId
           redirectUri := data.redirectUri
           codeChallenge := data.codeChallenge
           expiresAt := now + sessionTTLms }]

/-- `OAuthStore.registerClient`: upsert keyed on `client_id`. -/
def registerClientOp (st : List RegisteredClient) (c : RegisteredClient) :
    List RegisteredClient :=
  if st.any (fun x => x.clientId = c.clientId) then
    st.map (fun x => if x.clientId = c.clientId then c else x)
  else st ++ [c]

/-- `OAuthStore.getClient`: `.eq("client_id", cid).single()`. -/
def getClient (st : List RegisteredClient) (cid : String) : Option RegisteredClient :=
  match st.filter (fun c => c.clientId = cid) with
  | [c] => some c
  | _ => none

/-! ## OAuth broker endpoints (`createOAuthRouter`, Supabase variant)

Sources of nondeterminism in the handlers (`crypto.randomUUID()`,
`Date.now()`, and the outcome of the server-to-server Withings
exchange) are explicit parameters.
-/

/-- Deployment OAuth configuration. -/
structure OAuthConfig where
  clientId : String
  clientSecret : String
  redirectUri : String
deriving DecidableEq, Repr

/-- `POST /register` JSON response. -/
structure RegisterResult where
  clientId : String
  redirectUris : List String
deriving DecidableEq, Repr

/-- `POST /register` handler: persists a `RegisteredClient` whose
`redirectUris` is `body.redirect_uris || []` and echoes it back.
`body` is the parsed `redirect_uris` field (`none` when absent). -/
def registerEndpoint (freshClientId : String) (body : Option (List String))
    (clients : List RegisteredClient) : List RegisteredClient × RegisterResult :=
  let uris := body.getD []
  (registerClientOp clients { clientId := freshClientId, clientSecret := none,
                              redirectUris := uris },
   { clientId := freshClientId, redirectUris := uris })

/-- Query parameters of `GET /authorize`. -/
structure AuthorizeRequest where
  responseType : Option String
  clientId : Option String
  redirectUri : Option String
  state : Option String
  codeChallenge : Option String
  codeChallengeMethod : Option String
deriving DecidableEq, Repr

/-- The redirect issued to the Withings authorization endpoint,
modeled by its query parameters. -/
structure ProviderAuthRedirect where
  responseType : String
  clientId : String
  redirectUri : String
  scope : String
  state : String
deriving DecidableEq, Repr

/-- Outcome of `GET /authorize`. -/
inductive AuthorizeResult where
  | err (code : String) (status : Nat)
  | redirect (url : ProviderAuthRedirect)
deriving DecidableEq, Repr

/-- `GET /authorize` handler. Validates `response_type`,
`redirect_uri`, `state` and `client_id`, resolves the registered
client, rejects a `redirect_uri` that the client did not register,
then stores an `OAuthSession` under a fresh internal state and
redirects to the Withings authorization URL. -/
def authorizeEndpoint (config : OAuthConfig) (now : Int) (internalState : String)
    (clients : List RegisteredClient) (sessions : List OAuthSessionRow)
    (req : AuthorizeRequest) :
    List OAuthSessionRow × AuthorizeResult :=
  if req.responseType ≠ some "code" then
    (sessions, .err "unsupported_response_type" 400)
  else if jsFalsy req.redirectUri then
    (sessions, .err "invalid_request" 400)
  else if jsFalsy req.state then
    (sessions, .err "invalid_request" 400)
  else if jsFalsy req.clientId then
    (sessions, .err "invalid_request" 400)
  else
    match getClient clients (req.clientId.getD "") with
    | none => (sessions, .err "invalid_client" 400)
    | some rc =>
      if !(rc.redirectUris.contains (req.redirectUri.getD "")) then
        (sessions, .err "invalid_request" 400)
      else
        (sessions ++ [{ sessionId := internalState
                        session := { state := req.state.getD ""
                                     codeChallenge := req.codeChallenge
                                     codeChallengeMethod := req.codeChallengeMethod
                                     redirectUri := req.redirectUri.getD ""
                                     clientId := req.clientId }
                        expiresAt := now + sessionTTLms }],
         .redirect { responseType := "code"
                     clientId := config.clientId
                     redirectUri := config.redirectUri
                     scope := "user.metrics,user.activity,user.sleepevents"
                     state := internalState })

/-! ## Token vault (`TokenStore`, `src/auth/token-store.ts`, Supabase variant)

`enc : String → String` stands for `encrypt` and
`dec : String → Option String` for `decrypt`, whose byte-level model
appears in the encryption section below; `dec` returning `none` models
`decrypt` throwing (authentication-tag failure), and the `Except`
error of a store operation models that exception propagating to the
caller uncaught.
-/

/-- Plaintext view of a vault record (`TokenData`). -/
structure TokenData where
  withingsAccessToken : String
  withingsRefreshToken : String
  withingsUserId : String
  expiresAt : Int
deriving DecidableEq, Repr

/-- Row of the `mcp_tokens` table (`McpTokenRow`). `withingsExpiresAt`
is the short-lived provider token expiry; `expiresAt` is the record's
own 30-day TTL deadline. -/
structure McpTokenRow where
  mcpToken : String
  encryptedAccessToken : String
  encryptedRefreshToken : String
  withingsUserId : String
  withingsExpiresAt : Int
  expiresAt : Int
  updatedAt : Int
deriving DecidableEq, Repr

abbrev TokenStoreState := List McpTokenRow

/-- Record TTL: 30 days in milliseconds (`TTL_MS`). -/
def tokenTTLms : Int := 2592000000

/-- `TokenStore.storeTokens`: upsert keyed on `mcp_token`, encrypting
both tokens and setting `expires_at := now + TTL_MS`. -/
def storeTokens (enc : String → String) (now : Int) (st : TokenStoreState)
    (tok : String) (data : TokenData) : TokenStoreState :=
  let row : McpTokenRow :=
    { mcpToken := tok
      encryptedAccessToken := enc data.withingsAccessToken
      encryptedRefreshToken := enc data.withingsRefreshToken
      withingsUserId := data.withingsUserId
      withingsExpiresAt := data.expiresAt
      expiresAt := now + tokenTTLms
      updatedAt := now }
  if st.any (fun r => r.mcpToken = tok) then
    st.map (fun r => if r.mcpToken = tok then row else r)
  else st ++ [row]

/-- The row visible to `getTokens`:
`.eq("mcp_token", tok).gt("expires_at", now).single()`. -/
def findTokenRow (now : Int) (st : TokenStoreState) (tok : String) :
    Option McpTokenRow :=
  match st.filter (fun r => r.mcpToken = tok && now < r.expiresAt) with
  | [r] => some r
  | _ => none

/-- `TokenStore.getTokens`: look the row up and decrypt both tokens.
There is no `try`/`catch` around `decrypt` in the source, so a
decryption failure (`dec _ = none`) propagates as an exception
(`Except.error`), distinct from the "absent row" result `.ok none`. -/
def getTokens (dec : String → Option String) (now : Int) (st : TokenStoreState)
    (tok : String) : Except Unit (Option TokenData) :=
  match findTokenRow now st tok with
  | none => .ok none
  | some r =>
    match dec r.encryptedAccessToken, dec r.encryptedRefreshToken with
    | some a, some rf => .ok (some { withingsAccessToken := a
                                     withingsRefreshToken := rf
                                     withingsUserId := r.withingsUserId
                                     expiresAt := r.withingsExpiresAt })
    | _, _ => .error ()

/-- Partial update passed to `updateTokens` (`Partial<TokenData>`). -/
structure TokenUpdate where
  withingsAccessToken : Option String
  withingsRefreshToken : Option String
  withingsUserId : Option String
  expiresAt : Option Int
deriving DecidableEq, Repr

/-- `TokenStore.updateTokens`: read the existing record, merge the
partial update over it, and re-encrypt; the SQL `UPDATE` sets the
two ciphertexts, `withings_user_id`, `withings_expires_at` and
`updated_at` for the row keyed by `mcp_token` — it does not touch
`expires_at`. A missing record raises (`.error`), as does a
decryption failure inside the initial `getTokens`. -/
def updateTokens (enc : String → String) (dec : String → Option String)
    (now : Int) (st : TokenStoreState) (tok : String) (updates : TokenUpdate) :
    Except Unit TokenStoreState :=
  match getTokens dec now st tok with
  | .error _ => .error ()
  | .ok none => .error ()
  | .ok (some existing) =>
    let u : TokenData :=
      { withingsAccessToken := updates.withingsAccessToken.getD existing.withingsAccessToken
        withingsRefreshToken := updates.withingsRefreshToken.getD existing.withingsRefreshToken
        withingsUserId := updates.withingsUserId.getD existing.withingsUserId
        expiresAt := updates.expiresAt.getD existing.expiresAt }
    .ok (st.map (fun r =>
      if r.mcpToken = tok then
        { r with encryptedAccessToken := enc u.withingsAccessToken
                 encryptedRefreshToken := enc u.withingsRefreshToken
                 withingsUserId := u.withingsUserId
                 withingsExpiresAt := u.expiresAt
                 updatedAt := now }
      else r))

/-! ## `POST /token` handler (`createOAuthRouter`, Supabase variant) -/

/-- Form body of `POST /token`. -/
structure TokenRequest where
  grantType : Option String
  code : Option String
  codeVerifier : Option String
  redirectUri : Option String
deriving DecidableEq, Repr

/-- Body of a successful Withings token-endpoint response
(`status == 0`). -/
structure WithingsTokens where
  accessToken : String
  refreshToken : String
  userid : String
  expiresIn : Nat
deriving DecidableEq, Repr

/-- Outcome of `POST /token`. -/
inductive TokenResult where
  | err (code : String) (status : Nat)
  | token (accessToken : String) (tokenType : String) (expiresIn : Nat)
deriving DecidableEq, Repr

/-- `MCP_TOKEN_TTL_SECONDS = 30 * 24 * 60 * 60`. -/
def mcpTokenTTLSeconds : Nat := 30 * 24 * 60 * 60

/-- The tail of the `/token` handler after all validations: exchange
the (decrypted) Withings code server-to-server, store the provider
tokens in the vault under a fresh bridge token, and answer with the
bridge token and the fixed 30-day `expires_in`. -/
def tokenExchangeTail (enc : String → String) (now : Int) (freshMcpToken : String)
    (providerExchange : String → Option WithingsTokens)
    (codes1 : List AuthCodeRow) (vault : TokenStoreState) (d : AuthCode) :
    List AuthCodeRow × TokenStoreState × TokenResult :=
  match providerExchange d.withingsCode with
  | none => (codes1, vault, .err "server_error" 500)
  | some wt =>
    (codes1,
     storeTokens enc now vault freshMcpToken
       { withingsAccessToken := wt.accessToken
         withingsRefreshToken := wt.refreshToken
         withingsUserId := wt.userid
         expiresAt := now + (wt.expiresIn : Int) * 1000 },
     .token freshMcpToken "Bearer" mcpTokenTTLSeconds)

/-- `POST /token` handler. `providerExchange` models the
server-to-server Withings code exchange: applied to the decrypted
Withings code, it yields `some tokens` on `status == 0` and `none`
when the provider reports failure or the fetch throws (both of which
the handler maps to a 500 `server_error`). `freshMcpToken` is the
`crypto.randomUUID()` bridge token minted on success. -/
def tokenEndpoint (enc : String → String) (dec : String → String) (now : Int)
    (freshMcpToken : String) (providerExchange : String → Option WithingsTokens)
    (codes : List AuthCodeRow) (vault : TokenStoreState) (req : TokenRequest) :
    List AuthCodeRow × TokenStoreState × TokenResult :=
  if req.grantType ≠ some "authorization_code" then
    (codes, vault, .err "unsupported_grant_type" 400)
  else
    match consumeAuthCode dec now codes req.code with
    | (codes1, none) => (codes1, vault, .err "invalid_grant" 400)
    | (codes1, some d) =>
      if req.redirectUri ≠ some d.redirectUri then
        (codes1, vault, .err "invalid_grant" 400)
      else if jsTruthy d.codeChallenge then
        if jsFalsy req.codeVerifier then
          (codes1, vault, .err "invalid_request" 400)
        else if base64URLEncode (sha256 (utf8Encode (req.codeVerifier.getD ""))) ≠
                  d.codeChallenge.getD "" then
          (codes1, vault, .err "invalid_grant" 400)
        else
          tokenExchangeTail enc now freshMcpToken providerExchange codes1 vault d
      else
        tokenExchangeTail enc now freshMcpToken providerExchange codes1 vault d

/-! ## Encryption utility (`src/utils/encryption.ts`)

`encrypt` draws a random 32-byte salt and 16-byte IV, derives a key
with PBKDF2 from the deployment master secret, seals with AES-256-GCM,
and stores `base64(salt ++ iv ++ tag ++ ciphertext)`; `decrypt`
re-parses that layout, re-derives the key, and opens — `decipher.final()`
throws when the authentication tag does not verify.  PBKDF2 and
AES-256-GCM are `node:crypto` library primitives, abstracted here as a
parameter structure; `gcmOpen = none` models the tag-check throw.
-/

structure CryptoPrims where
  pbkdf2 : List Nat → List Nat → List Nat
  gcmSeal : List Nat → List Nat → List Nat → List Nat
  gcmTag : List Nat → List Nat → List Nat → List Nat
  gcmOpen : List Nat → List Nat → List Nat → List Nat → Option (List Nat)

/-- The AEAD contract of AES-256-GCM: opening with the sealing key,
IV, ciphertext and tag recovers the plaintext, and a successful open
means ciphertext and tag are exactly a sealing of the recovered
plaintext under that key and IV. -/
def CryptoPrims.Sound (p : CryptoPrims) : Prop :=
  (∀ k iv pt, p.gcmOpen k iv (p.gcmSeal k iv pt) (p.gcmTag k iv pt) = some pt) ∧
  (∀ k iv ct tag pt, p.gcmOpen k iv ct tag = some pt →
    ct = p.gcmSeal k iv pt ∧ tag = p.gcmTag k iv pt)

/-- `encrypt(plaintext)` with the randomness (salt, IV) explicit. -/
def encryptModel (p : CryptoPrims) (master : String) (salt iv : List Nat)
    (plaintext : String) : String :=
  let key := p.pbkdf2 (utf8Encode master) salt
  let pt := utf8Encode plaintext
  base64Encode (salt ++ iv ++ p.gcmTag key iv pt ++ p.gcmSeal key iv pt)

/-- `decrypt(encryptedData)`: split the base64-decoded blob into
`salt := [0,32)`, `iv := [32,48)`, `tag := [48,64)`, `ct := [64,..)`,
re-derive the key, and open; `none` is the authentication-tag throw. -/
def decryptModel (p : CryptoPrims) (master : String) (blob : String) :
    Option String :=
  let combined := base64Decode blob
  let salt := combined.take 32
  let iv := (combined.drop 32).take 16
  let tag := (combined.drop 48).take 16
  let encrypted := combined.drop 64
  let key := p.pbkdf2 (utf8Encode master) salt
  match p.gcmOpen key iv encrypted tag with
  | some pt => some (utf8Decode pt)
  | none => none

/-- A concrete instantiation of the crypto primitives used to evaluate
the model on explicit inputs: key derivation and the authentication
tag are built from SHA-256 and the "cipher" is the identity, so tag
verification is a recomputation check. -/
def toyPrims : CryptoPrims where
  pbkdf2 m s := sha256 (m ++ s)
  gcmSeal _ _ pt := pt
  gcmTag k iv pt := (sha256 (k ++ iv ++ pt)).take 16
  gcmOpen k iv ct tag := if tag = (sha256 (k ++ iv ++ ct)).take 16 then some ct else none

theorem toyPrims_sound : toyPrims.Sound := by
  constructor
  · intro k iv pt; simp [toyPrims]
  · intro k iv ct tag pt h
    simp only [toyPrims] at h
    split at h
    · cases h; exact ⟨rfl, by simp_all [toyPrims]⟩
    · cases h

/-! ## Rate limiter

`RateLimiter.checkLimit` (Supabase variant, `src/server/rate-limiter.ts`)
issues two separate queries: a `select ... single()` read, then an
upsert/update write computed from that read.  Each query is one atomic
store event, so a concurrent execution of two calls interleaves the
four events.  Migration `004_atomic_rate_limit.sql` defines the SQL
function `check_rate_limit`, which performs the read and the write
inside one transaction under `FOR UPDATE` and is therefore a single
atomic step.
-/

/-- Row of the `rate_limits` table. -/
structure RateLimitRow where
  identifier : String
  requestCount : Nat
  resetTime : Int
deriving DecidableEq, Repr

structure RateLimitConfig where
  maxRequests : Nat
  windowMs : Int
deriving DecidableEq, Repr

structure RateLimitResult where
  allowed : Bool
  remaining : Int
  resetTime : Int
deriving DecidableEq, Repr

/-- Read phase of `checkLimit`:
`.select("*").eq("identifier", id).single()`. -/
def getRateLimitRow (st : List RateLimitRow) (id : String) : Option RateLimitRow :=
  match st.filter (fun r => r.identifier = id) with
  | [r] => some r
  | _ => none

/-- Upsert keyed on `identifier` used by the write phase. -/
def upsertRateLimitRow (st : List RateLimitRow) (row : RateLimitRow) :
    List RateLimitRow :=
  if st.any (fun r => r.identifier = row.identifier) then
    st.map (fun r => if r.identifier = row.identifier then row else r)
  else st ++ [row]

/-- Decision-and-write phase of `checkLimit`, computed from the
observation `current` made by the earlier read phase (which may be
stale by the time the write executes). -/
def checkLimitWrite (now : Int) (config : RateLimitConfig)
    (current : Option RateLimitRow) (id : String) (st : List RateLimitRow) :
    List RateLimitRow × RateLimitResult :=
  match current with
  | none =>
    (upsertRateLimitRow st { identifier := id, requestCount := 1,
                             resetTime := now + config.windowMs },
     { allowed := true, remaining := (config.maxRequests : Int) - 1,
       resetTime := now + config.windowMs })
  | some cur =>
    if cur.resetTime < now then
      (upsertRateLimitRow st { identifier := id, requestCount := 1,
                               resetTime := now + config.windowMs },
       { allowed := true, remaining := (config.maxRequests : Int) - 1,
         resetTime := now + config.windowMs })
    else if config.maxRequests ≤ cur.requestCount then
      (st, { allowed := false, remaining := 0, resetTime := cur.resetTime })
    else
      (st.map (fun r => if r.identifier = id then
                 { r with requestCount := cur.requestCount + 1 } else r),
       { allowed := true,
         remaining := (config.maxRequests : Int) - (cur.requestCount : Int) - 1,
         resetTime := cur.resetTime })

/-- `RateLimiter.checkLimit` run in isolation: read, then write. -/
def checkLimit (now : Int) (config : RateLimitConfig) (id : String)
    (st : List RateLimitRow) : List RateLimitRow × RateLimitResult :=
  checkLimitWrite now config (getRateLimitRow st id) id st

/-- Two concurrent `checkLimit` calls for the same identifier under
the interleaving read-A, read-B, write-A, write-B (every event is one
awaited query, so this schedule is among the possible executions). -/
def checkLimitRace (now : Int) (config : RateLimitConfig) (id : String)
    (st : List RateLimitRow) :
    List RateLimitRow × RateLimitResult × RateLimitResult :=
  let obsA := getRateLimitRow st id
  let obsB := getRateLimitRow st id
  let (st1, resA) := checkLimitWrite now config obsA id st
  let (st2, resB) := checkLimitWrite now config obsB id st1
  (st2, resA, resB)

/-- The SQL function `check_rate_limit` of migration
`004_atomic_rate_limit.sql`: the row is selected `FOR UPDATE` and
updated in the same transaction, so the whole function is one atomic
state transition. Returns `(allowed, request_count, reset_time)`. -/
def checkRateLimitSQL (now : Int) (id : String) (maxRequests : Nat)
    (windowMs : Int) (st : List RateLimitRow) :
    List RateLimitRow × (Bool × Nat × Int) :=
  match getRateLimitRow st id with
  | none =>
    (upsertRateLimitRow st { identifier := id, requestCount := 1,
                             resetTime := now + windowMs },
     (true, 1, now + windowMs))
  | some cur =>
    if cur.resetTime < now then
      (upsertRateLimitRow st { identifier := id, requestCount := 1,
                               resetTime := now + windowMs },
       (true, 1, now + windowMs))
    else if maxRequests ≤ cur.requestCount then
      (st, (false, cur.requestCount, cur.resetTime))
    else
      (st.map (fun r => if r.identifier = id then
                 { r with requestCount := cur.requestCount + 1 } else r),
       (true, cur.requestCount + 1, cur.resetTime))

/-! ## MCP session endpoints (`src/server/mcp-endpoints.ts`)

The live-session table maps a session id to the transport and the
bearer token presented when the session was created
(`sessionManager.createSession(sessionId, transport, mcpToken)`).
A transport is modeled by the ordered list of JSON-RPC messages pumped
into it via `handleIncomingMessage`.
-/

/-- JSON values (parsed request bodies). -/
inductive Json where
  | null
  | bool (b : Bool)
  | num (n : Int)
  | str (s : String)
  | arr (elems : List Json)
  | obj (fields : List (String × Json))
deriving BEq, Repr

def jlookup (fields : List (String × Json)) (k : String) : Option Json :=
  (fields.find? (fun f => f.1 == k)).map (fun f => f.2)

def Json.isStr : Json → Bool
  | .str _ => true
  | _ => false

/-- `isValidJsonRpcMessage` from `src/server/mcp-endpoints.ts`:
requires `jsonrpc: "2.0"`; a request/notification has a string
`method` and, if present, a null/string/number `id`; a response has an
`id` and a `result` or `error` member. -/
def isValidJsonRpcMessage (msg : Json) : Bool :=
  match msg with
  | .obj fields =>
    (jlookup fields "jsonrpc" == some (.str "2.0")) &&
    (match jlookup fields "method" with
     | some m =>
       m.isStr &&
       (match jlookup fields "id" with
        | none => true
        | some .null => true
        | some (.str _) => true
        | some (.num _) => true
        | some _ => false)
     | none =>
       match jlookup fields "id" with
       | some _ => (jlookup fields "result").isSome || (jlookup fields "error").isSome
       | none => false)
  | _ => false

/-- A live session: the bearer token bound at creation and the
messages pumped into its transport so far. -/
structure SessionRec where
  mcpToken : String
  channel : List Json
deriving BEq, Repr

abbrev SessionTable := List (String × SessionRec)

/-- `sessionManager.getSession`. -/
def getSessionT (st : SessionTable) (sid : String) : Option SessionRec :=
  (st.find? (fun p => p.1 == sid)).map (fun p => p.2)

/-- Modelled from the spec: `SessionManager.createSession(sessionId,
transport, mcpToken)` of the session-manager revision that binds the
creating bearer token — the file holding that three-argument
`createSession` is not in the snapshot (only its call sites in
`src/server/mcp-endpoints.ts` and an earlier two-argument revision
are), so per the spec the session record stores the bearer credential
presented at creation, replacing any session with the same id. -/
def createSession (st : SessionTable) (sid tok : String) : SessionTable :=
  if st.any (fun p => p.1 == sid) then
    st.map (fun p => if p.1 == sid then (sid, ⟨tok, []⟩) else p)
  else st ++ [(sid, ⟨tok, []⟩)]

/-- Outcome of `handleMcpPost` on a request carrying a session id. -/
inductive McpPostResult where
  | err (code : String) (status : Nat)
  | accepted
deriving BEq, Repr

/-- The existing-session branch of `handleMcpPost` (request carries a
`Mcp-Session-Id` header): look up the session (404 if absent), reject
with 403 `forbidden` when the bearer token differs from the session
owner's, validate the JSON-RPC message (400), and only then pump the
message into the session's transport, answering 202. -/
def handleMcpPostExisting (st : SessionTable) (sid : String)
    (bearerToken : String) (msg : Json) : SessionTable × McpPostResult :=
  match getSessionT st sid with
  | none => (st, .err "invalid_session" 404)
  | some s =>
    if s.mcpToken ≠ bearerToken then
      (st, .err "forbidden" 403)
    else if !(isValidJsonRpcMessage msg) then
      (st, .err "invalid_request" 400)
    else
      (st.map (fun p => if p.1 == sid then
         (p.1, { p.2 with channel := p.2.channel ++ [msg] }) else p),
       .accepted)

/-! ## Withings request path with transparent refresh (`src/withings-api.ts`)

`makeWithingsRequest` pulls the vault record, refreshes the provider
token when it expires within the 5-minute buffer, and only then issues
the API call.  The provider's refresh-token grant
(`refreshWithingsToken`) and the final API fetch are explicit oracle
parameters; the returned `Nat` counts how many times the refresh grant
was invoked during the call.
-/

/-- Result of `refreshWithingsToken` on provider `status == 0`. -/
structure RefreshedTokens where
  accessToken : String
  refreshToken : String
  expiresIn : Nat
  userId : String
deriving DecidableEq, Repr

/-- Observable outcome of `makeWithingsRequest`: a thrown error or the
response body of the final fetch. -/
inductive WithingsOutcome where
  | thrown (msg : String)
  | body (b : Json)
deriving BEq, Repr

/-- `EXPIRY_BUFFER_MS = 5 * 60 * 1000`. -/
def expiryBufferMs : Int := 300000

/-- `makeWithingsRequest` (token-handling skeleton; the query-building
and status-code mapping of the final fetch live inside the `apiCall`
oracle, which receives the bearer access token actually used).
`refreshOutcome` is the single provider refresh-grant result:
`.error` when `refreshWithingsToken` throws (provider `status != 0`
or fetch failure). The `catch` around the refresh block re-throws, so
a failed refresh surfaces as a thrown error with the store untouched,
and the refresh grant is never re-attempted. -/
def makeWithingsRequest (enc : String → String) (dec : String → Option String)
    (now : Int) (refreshOutcome : Except String RefreshedTokens)
    (apiCall : String → WithingsOutcome) (st : TokenStoreState)
    (mcpToken : String) : TokenStoreState × WithingsOutcome × Nat :=
  match getTokens dec now st mcpToken with
  | .error _ => (st, .thrown "decrypt failure", 0)
  | .ok none => (st, .thrown "Invalid or expired token", 0)
  | .ok (some td) =>
    if td.expiresAt - now < expiryBufferMs then
      match refreshOutcome with
      | .error e => (st, .thrown ("Failed to refresh access token: " ++ e), 1)
      | .ok r =>
        match updateTokens enc dec now st mcpToken
            { withingsAccessToken := some r.accessToken
              withingsRefreshToken := some r.refreshToken
              withingsUserId := none
              expiresAt := some (now + (r.expiresIn : Int) * 1000) } with
        | .error _ => (st, .thrown "Failed to refresh access token: update", 1)
        | .ok st1 =>
          match getTokens dec now st1 mcpToken with
          | .error _ => (st1, .thrown "Failed to refresh access token: retrieve", 1)
          | .ok none => (st1, .thrown "Failed to refresh access token: retrieve", 1)
          | .ok (some td2) => (st1, apiCall td2.withingsAccessToken, 1)
    else
      (st, apiCall td.withingsAccessToken, 0)

/-! ## Helper lemmas on the token endpoint -/

theorem consumeAuthCode_fst (dec : String → String) (now : Int)
    (st : List AuthCodeRow) (code : Option String) :
    (consumeAuthCode dec now st code).1
      = st.filter (fun r => !(authCodeLive now code r)) := by
  unfold consumeAuthCode
  split <;> rfl

theorem consumeAuthCode_none (dec : String → String) (now : Int)
    (st : List AuthCodeRow) (code : Option String)
    (h : st.filter (authCodeLive now code) = []) :
    (consumeAuthCode dec now st code).2 = none := by
  unfold consumeAuthCode
  rw [h]

theorem tokenExchangeTail_fst (enc : String → String) (now : Int) (ft : String)
    (pe : String → Option WithingsTokens) (codes1 : List AuthCodeRow)
    (vault : TokenStoreState) (d : AuthCode) :
    (tokenExchangeTail enc now ft pe codes1 vault d).1 = codes1 := by
  unfold tokenExchangeTail
  split <;> rfl

theorem tokenExchangeTail_token (enc : String → String) (now : Int) (ft : String)
    (pe : String → Option WithingsTokens) (codes1 : List AuthCodeRow)
    (vault : TokenStoreState) (d : AuthCode) (t ty : String) (ei : Nat)
    (h : (tokenExchangeTail enc now ft pe codes1 vault d).2.2 = .token t ty ei) :
    t = ft ∧ ty = "Bearer" ∧ ei = mcpTokenTTLSeconds := by
  unfold tokenExchangeTail at h
  split at h
  · exact absurd h (by simp)
  · simp only [TokenResult.token.injEq] at h
    exact ⟨h.1.symm, h.2.1.symm, h.2.2.symm⟩

theorem tokenEndpoint_fst (enc dec : String → String) (now : Int) (ft : String)
    (pe : String → Option WithingsTokens) (codes : List AuthCodeRow)
    (vault : TokenStoreState) (req : TokenRequest)
    (hgrant : req.grantType = some "authorization_code") :
    (tokenEndpoint enc dec now ft pe codes vault req).1
      = codes.filter (fun r => !(authCodeLive now req.code r)) := by
  unfold tokenEndpoint
  rw [if_neg (by simp [hgrant])]
  rcases hc : consumeAuthCode dec now codes req.code with ⟨codes1, opt⟩
  have h1 : codes1 = codes.filter (fun r => !(authCodeLive now req.code r)) := by
    rw [← consumeAuthCode_fst dec now codes req.code, hc]
  cases opt with
  | none => simpa using h1
  | some d =>
    simp only []
    split
    · simpa using h1
    · split
      · split
        · simpa using h1
        · split
          · simpa using h1
          · rw [tokenExchangeTail_fst]; exact h1
      · rw [tokenExchangeTail_fst]; exact h1

theorem tokenEndpoint_grant (enc dec : String → String) (now : Int) (ft : String)
    (pe : String → Option WithingsTokens) (codes : List AuthCodeRow)
    (vault : TokenStoreState) (req : TokenRequest) (t ty : String) (ei : Nat)
    (h : (tokenEndpoint enc dec now ft pe codes vault req).2.2 = .token t ty ei) :
    req.grantType = some "authorization_code" := by
  by_contra hg
  unfold tokenEndpoint at h
  rw [if_pos (by simpa using hg)] at h
  exact absurd h (by simp)

theorem authCodeLive_mono (now now2 : Int) (code : Option String) (r : AuthCodeRow)
    (h : authCodeLive now code r = false) (hle : now ≤ now2) :
    authCodeLive now2 code r = false := by
  simp only [authCodeLive, Bool.and_eq_false_iff, decide_eq_false_iff_not] at h ⊢
  rcases h with h | h
  · exact Or.inl h
  · exact Or.inr (by omega)

/-- C1. For every `AuthorizationCode` value, once a `POST /token`
exchange has succeeded, any later `/token` exchange presenting the
same code (at any time `now2 ≥ now`, whatever encryption functions,
fresh token, provider outcome, vault state and remaining request
fields) answers `invalid_grant` — never a fresh token pair. The
lookup-and-consume is the single atomic transition `consumeAuthCode`
(delete-and-return in one query), so the second caller finds no row. -/
theorem token_code_single_use
    (enc dec : String → String) (now now2 : Int) (ft : String)
    (pe : String → Option WithingsTokens) (codes : List AuthCodeRow)
    (vault : TokenStoreState) (req : TokenRequest)
    (enc2 dec2 : String → String) (ft2 : String)
    (pe2 : String → Option WithingsTokens) (vault2 : TokenStoreState)
    (req2 : TokenRequest) (t ty : String) (ei : Nat)
    (hsucc : (tokenEndpoint enc dec now ft pe codes vault req).2.2 = .token t ty ei)
    (hg2 : req2.grantType = some "authorization_code")
    (hcode : req2.code = req.code) (hnow : now ≤ now2) :
    (tokenEndpoint enc2 dec2 now2 ft2 pe2
        (tokenEndpoint enc dec now ft pe codes vault req).1 vault2 req2).2.2
      = .err "invalid_grant" 400 := by
  have hg1 : req.grantType = some "authorization_code" :=
    tokenEndpoint_grant enc dec now ft pe codes vault req t ty ei hsucc
  rw [tokenEndpoint_fst enc dec now ft pe codes vault req hg1]
  have hfilter :
      (codes.filter (fun r => !(authCodeLive now req.code r))).filter
        (authCodeLive now2 req2.code) = [] := by
    rw [List.filter_eq_nil_iff]
    intro r hr
    rcases List.mem_filter.mp hr with ⟨_, hlive⟩
    have hfalse : authCodeLive now req.code r = false := by
      simpa using hlive
    rw [hcode]
    simp [authCodeLive_mono now now2 req.code r hfalse hnow]
  unfold tokenEndpoint
  rw [if_neg (by simp [hg2])]
  rcases hc2 : consumeAuthCode dec2 now2
      (codes.filter (fun r => !(authCodeLive now req.code r))) req2.code with ⟨c2, opt2⟩
  have hnone : opt2 = none := by
    have := consumeAuthCode_none dec2 now2
      (codes.filter (fun r => !(authCodeLive now req.code r))) req2.code hfilter
    rw [hc2] at this
    exact this
  subst hnone
  rfl

/-- Auth-code row used to evaluate the endpoint theorems on concrete
inputs. -/
def wRow : AuthCodeRow :=
  { code := "AC1", withingsCode := "WC1", clientId := none,
    redirectUri := "https://app.example/cb", codeChallenge := none,
    expiresAt := 1000 }

/-- Token request used to evaluate the endpoint theorems. -/
def wReq : TokenRequest :=
  { grantType := some "authorization_code", code := some "AC1",
    codeVerifier := none, redirectUri := some "https://app.example/cb" }

/-- Always-successful provider exchange used to evaluate the endpoint
theorems; the provider token has a short 3-hour `expires_in`. -/
def wPE : String → Option WithingsTokens :=
  fun _ => some { accessToken := "WAT", refreshToken := "WRT",
                  userid := "U1", expiresIn := 10800 }

/-- C1 witness: a concrete first exchange of `AC1` succeeds, and the
second exchange of the same code answers `invalid_grant`. -/
theorem token_code_single_use_witness :
    (tokenEndpoint (fun s => s) (fun s => s) 5 "BT2" wPE
        (tokenEndpoint (fun s => s) (fun s => s) 0 "BT1" wPE [wRow] [] wReq).1
        [] wReq).2.2 = .err "invalid_grant" 400 :=
  token_code_single_use (fun s => s) (fun s => s) 0 5 "BT1" wPE [wRow] [] wReq
    (fun s => s) (fun s => s) "BT2" wPE [] wReq "BT1" "Bearer" mcpTokenTTLSeconds
    (by decide) rfl rfl (by decide)

/-- C7. Every successful `POST /token` response carries
`expires_in = 2592000` (the fixed 30-day bridge-token TTL,
`MCP_TOKEN_TTL_SECONDS`), whatever `expires_in` the provider returned
for its own token. -/
theorem token_expires_in_fixed
    (enc dec : String → String) (now : Int) (ft : String)
    (pe : String → Option WithingsTokens) (codes : List AuthCodeRow)
    (vault : TokenStoreState) (req : TokenRequest) (t ty : String) (ei : Nat)
    (h : (tokenEndpoint enc dec now ft pe codes vault req).2.2 = .token t ty ei) :
    ei = 2592000 ∧ ty = "Bearer" := by
  have hres : ty = "Bearer" ∧ ei = mcpTokenTTLSeconds := by
    unfold tokenEndpoint at h
    split at h
    · exact absurd h (by simp)
    · rcases hc : consumeAuthCode dec now codes req.code with ⟨codes1, opt⟩
      rw [hc] at h
      cases opt with
      | none => exact absurd h (by simp)
      | some d =>
        simp only [] at h
        split at h
        · exact absurd h (by simp)
        · split at h
          · split at h
            · exact absurd h (by simp)
            · split at h
              · exact absurd h (by simp)
              · exact ⟨(tokenExchangeTail_token _ _ _ _ _ _ _ _ _ _ h).2.1,
                       (tokenExchangeTail_token _ _ _ _ _ _ _ _ _ _ h).2.2⟩
          · exact ⟨(tokenExchangeTail_token _ _ _ _ _ _ _ _ _ _ h).2.1,
                   (tokenExchangeTail_token _ _ _ _ _ _ _ _ _ _ h).2.2⟩
  exact ⟨by rw [hres.2]; rfl, hres.1⟩

/-- C7 witness: the concrete successful exchange above (provider
`expires_in = 10800`) answers with the fixed `expires_in = 2592000`. -/
theorem token_expires_in_fixed_witness :
    (2592000 : Nat) = 2592000 ∧ "Bearer" = "Bearer" :=
  token_expires_in_fixed (fun s => s) (fun s => s) 0 "BT1" wPE [wRow] [] wReq
    "BT1" "Bearer" 2592000 (by decide)

/-! ## `/authorize` validation -/

/-- The registered client an `/authorize` request's `client_id`
resolves to, if any. -/
def resolveClient (clients : List RegisteredClient) (cid : Option String) :
    Option RegisteredClient :=
  match cid with
  | none => none
  | some c => getClient clients c

/-- Core of the `/authorize` rejection argument: when the `client_id`
resolves to no registered client, or resolves to one that did not
register the presented `redirect_uri`, every path through the handler
ends in a 400 error with the session table untouched. -/
theorem authorize_rejects (config : OAuthConfig) (now : Int) (istate : String)
    (clients : List RegisteredClient) (sessions : List OAuthSessionRow)
    (req : AuthorizeRequest)
    (h : ∀ rc, resolveClient clients req.clientId = some rc →
           req.redirectUri.getD "" ∉ rc.redirectUris) :
    (authorizeEndpoint config now istate clients sessions req).1 = sessions ∧
    ∃ e, (authorizeEndpoint config now istate clients sessions req).2
           = .err e 400 := by
  unfold authorizeEndpoint
  split
  · exact ⟨rfl, "unsupported_response_type", rfl⟩
  · split
    · exact ⟨rfl, "invalid_request", rfl⟩
    · split
      · exact ⟨rfl, "invalid_request", rfl⟩
      · split
        · exact ⟨rfl, "invalid_request", rfl⟩
        · rcases hg : getClient clients (req.clientId.getD "") with _ | rc
          · exact ⟨rfl, "invalid_client", rfl⟩
          · have hres : resolveClient clients req.clientId = some rc := by
              unfold resolveClient
              rcases hcid : req.clientId with _ | c
              · simp [jsFalsy, hcid] at *
              · rw [hcid] at hg
                simpa using hg
            have hmem := h rc hres
            dsimp only
            rw [if_pos (by simpa [List.contains] using hmem)]
            exact ⟨rfl, "invalid_request", rfl⟩

/-- C3. Every `GET /authorize` request whose `client_id` does not
resolve to a `RegisteredClient`, or whose `redirect_uri` is not among
that client's registered `redirect_uris`, is answered with a 400
error: no `AuthorizationSession` is stored and no redirect to the
provider is issued. -/
theorem authorize_unregistered_redirect_rejected
    (config : OAuthConfig) (now : Int) (istate : String)
    (clients : List RegisteredClient) (sessions : List OAuthSessionRow)
    (req : AuthorizeRequest)
    (h : ∀ rc, resolveClient clients req.clientId = some rc →
           req.redirectUri.getD "" ∉ rc.redirectUris) :
    (authorizeEndpoint config now istate clients sessions req).1 = sessions ∧
    ∃ e, (authorizeEndpoint config now istate clients sessions req).2
           = .err e 400 :=
  authorize_rejects config now istate clients sessions req h

/-- Deployment configuration used for concrete evaluations. -/
def wConfig : OAuthConfig :=
  { clientId := "withings-client", clientSecret := "withings-secret",
    redirectUri := "https://bridge.example/callback" }

/-- C3 witness: a registered client with `redirect_uris =
["https://app.example/cb"]` presenting `redirect_uri =
https://evil.example/` is rejected with a 400 error and no session is
stored. -/
theorem authorize_unregistered_redirect_rejected_witness :
    (authorizeEndpoint wConfig 0 "IS1"
        [{ clientId := "C1", clientSecret := none,
           redirectUris := ["https://app.example/cb"] }] []
        { responseType := some "code", clientId := some "C1",
          redirectUri := some "https://evil.example/", state := some "S1",
          codeChallenge := none, codeChallengeMethod := none }).1 = [] ∧
    ∃ e, (authorizeEndpoint wConfig 0 "IS1"
        [{ clientId := "C1", clientSecret := none,
           redirectUris := ["https://app.example/cb"] }] []
        { responseType := some "code", clientId := some "C1",
          redirectUri := some "https://evil.example/", state := some "S1",
          codeChallenge := none, codeChallengeMethod := none }).2
          = .err e 400 :=
  authorize_unregistered_redirect_rejected wConfig 0 "IS1" _ [] _
    (by
      intro rc hres
      have hrc : rc = { clientId := "C1", clientSecret := none,
                        redirectUris := ["https://app.example/cb"] } := by
        have heval : resolveClient
            [{ clientId := "C1", clientSecret := none,
               redirectUris := ["https://app.example/cb"] }] (some "C1")
            = some { clientId := "C1", clientSecret := none,
                     redirectUris := ["https://app.example/cb"] } := by decide
        rw [heval] at hres
        exact (Option.some.injEq _ _ ▸ hres).symm
      subst hrc
      decide)

/-- Registered-client rows with a given id in the post-register store
all carry the registered (possibly empty) URI list. -/
theorem registerClientOp_mem (st : List RegisteredClient) (c : RegisteredClient)
    (x : RegisteredClient) (hx : x ∈ registerClientOp st c)
    (hid : x.clientId = c.clientId) : x = c := by
  unfold registerClientOp at hx
  split at hx
  · rcases List.mem_map.mp hx with ⟨y, _, hy⟩
    by_cases hyc : y.clientId = c.clientId
    · rw [if_pos hyc] at hy; exact hy.symm
    · rw [if_neg hyc] at hy; rw [← hy] at hid; exact absurd hid hyc
  · rename_i hnone
    rcases List.mem_append.mp hx with hin | hin
    · exfalso
      apply hnone
      rw [List.any_eq_true]
      exact ⟨x, hin, by simpa using hid⟩
    · simpa using hin

/-- C10. A client registered through `POST /register` with a body
lacking `redirect_uris` (or supplying an empty list) is persisted with
`redirect_uris = []` and echoed back as such; thereafter every
`GET /authorize` request presenting that `client_id` is answered with
a 400 error, with no session stored and no provider redirect — no
`redirect_uri` can be a member of the empty list, so such a client can
never complete the flow. -/
theorem register_empty_uris_unusable
    (freshId : String) (body : Option (List String))
    (clients : List RegisteredClient)
    (hbody : body = none ∨ body = some []) :
    (registerEndpoint freshId body clients).2.redirectUris = [] ∧
    (∀ rc, getClient (registerEndpoint freshId body clients).1 freshId = some rc →
       rc.redirectUris = []) ∧
    (∀ (config : OAuthConfig) (now : Int) (istate : String)
       (sessions : List OAuthSessionRow) (req : AuthorizeRequest),
       req.clientId = some freshId →
       (authorizeEndpoint config now istate
           (registerEndpoint freshId body clients).1 sessions req).1 = sessions ∧
       ∃ e, (authorizeEndpoint config now istate
           (registerEndpoint freshId body clients).1 sessions req).2
             = .err e 400) := by
  have hb : body.getD [] = [] := by rcases hbody with h | h <;> simp [h]
  have hrows : ∀ rc, getClient (registerEndpoint freshId body clients).1 freshId
      = some rc → rc.redirectUris = [] := by
    intro rc hrc
    unfold registerEndpoint at hrc
    simp only [hb] at hrc
    unfold getClient at hrc
    rcases hf : List.filter (fun c => decide (c.clientId = freshId))
        (registerClientOp clients
          { clientId := freshId, clientSecret := none, redirectUris := [] })
      with _ | ⟨r, tail⟩
    · rw [hf] at hrc; exact absurd hrc (by simp)
    · rw [hf] at hrc
      cases tail with
      | cons r2 t2 => exact absurd hrc (by simp)
      | nil =>
        have hr : rc = r := by simpa using hrc.symm
        have hmem : r ∈ List.filter (fun c => decide (c.clientId = freshId))
            (registerClientOp clients
              { clientId := freshId, clientSecret := none, redirectUris := [] }) := by
          rw [hf]; exact List.mem_singleton.mpr rfl
        rcases List.mem_filter.mp hmem with ⟨hin, hpred⟩
        have : r = { clientId := freshId, clientSecret := none, redirectUris := [] } :=
          registerClientOp_mem clients _ r hin (by simpa using hpred)
        rw [hr, this]
  refine ⟨by simp [registerEndpoint, hb], hrows, ?_⟩
  intro config now istate sessions req hcid
  apply authorize_rejects
  intro rc hres
  have : rc.redirectUris = [] := by
    apply hrows
    unfold resolveClient at hres
    rw [hcid] at hres
    simpa using hres
  rw [this]
  simp

/-- C10 witness: register with no `redirect_uris` and then attempt a
fully-formed `/authorize` with the fresh `client_id`; registration
stores the empty list and authorization is rejected with the session
table untouched. -/
theorem register_empty_uris_unusable_witness :
    (registerEndpoint "C9" none []).2.redirectUris = [] ∧
    (∀ rc, getClient (registerEndpoint "C9" none []).1 "C9" = some rc →
       rc.redirectUris = []) ∧
    (∀ (config : OAuthConfig) (now : Int) (istate : String)
       (sessions : List OAuthSessionRow) (req : AuthorizeRequest),
       req.clientId = some "C9" →
       (authorizeEndpoint config now istate
           (registerEndpoint "C9" none []).1 sessions req).1 = sessions ∧
       ∃ e, (authorizeEndpoint config now istate
           (registerEndpoint "C9" none []).1 sessions req).2 = .err e 400) :=
  register_empty_uris_unusable "C9" none [] (Or.inl rfl)

/-! ## PKCE validation at `POST /token` -/

/-- Auth-code row carrying a PKCE challenge (the RFC 7636 test-vector
challenge), for concrete evaluation. -/
def wRowPkce : AuthCodeRow :=
  { code := "AC2", withingsCode := "WC2", clientId := none,
    redirectUri := "https://app.example/cb",
    codeChallenge := some "E9Melhoa2OwvFrEMTJguCHaoeK1t8URWbuGJSstw-cM",
    expiresAt := 1000 }

/-- C2 counterexample. With a stored PKCE challenge and an absent
`code_verifier`, the handler answers `invalid_request`, not the
`invalid_grant` error the claim asserts for "every other presented
verifier — including an absent or empty one". -/
theorem pkce_missing_verifier_counterexample :
    (tokenEndpoint (fun s => s) (fun s => s) 0 "BT1" wPE [wRowPkce] []
        { grantType := some "authorization_code", code := some "AC2",
          codeVerifier := none,
          redirectUri := some "https://app.example/cb" }).2.2
      = .err "invalid_request" 400 ∧
    TokenResult.err "invalid_request" 400 ≠ TokenResult.err "invalid_grant" 400 := by
  decide

/-- C2 (amended). For a consumed `AuthorizationCode` carrying a PKCE
challenge (a proper exchange: correct grant type and matching
`redirect_uri`): the exchange can succeed only when the presented
verifier is a nonempty string whose SHA-256, base64url-encoded without
padding, is byte-equal to the stored challenge; an absent or empty
verifier is answered `invalid_request`; and any other nonempty
verifier is answered `invalid_grant`. -/
theorem pkce_validation
    (enc dec : String → String) (now : Int) (ft : String)
    (pe : String → Option WithingsTokens) (codes codes1 : List AuthCodeRow)
    (vault : TokenStoreState) (req : TokenRequest) (d : AuthCode) (ch : String)
    (hg : req.grantType = some "authorization_code")
    (hc : consumeAuthCode dec now codes req.code = (codes1, some d))
    (hch : d.codeChallenge = some ch) (hne : ch ≠ "")
    (hred : req.redirectUri = some d.redirectUri) :
    (∀ t ty ei,
       (tokenEndpoint enc dec now ft pe codes vault req).2.2 = .token t ty ei →
       ∃ v, req.codeVerifier = some v ∧
         base64URLEncode (sha256 (utf8Encode v)) = ch) ∧
    (jsFalsy req.codeVerifier = true →
       (tokenEndpoint enc dec now ft pe codes vault req).2.2
         = .err "invalid_request" 400) ∧
    (∀ v, req.codeVerifier = some v → v ≠ "" →
       base64URLEncode (sha256 (utf8Encode v)) ≠ ch →
       (tokenEndpoint enc dec now ft pe codes vault req).2.2
         = .err "invalid_grant" 400) := by
  unfold tokenEndpoint
  rw [if_neg (by simp [hg]), hc]
  dsimp only
  rw [if_neg (by simp [hred]), if_pos (by simp [jsTruthy, jsFalsy, hch, hne])]
  rw [show d.codeChallenge.getD "" = ch by rw [hch]; rfl]
  refine ⟨?_, ?_, ?_⟩
  · intro t ty ei htok
    by_cases hv : jsFalsy req.codeVerifier = true
    · rw [if_pos hv] at htok
      exact absurd htok (by simp)
    · rw [if_neg hv] at htok
      rcases hcv : req.codeVerifier with _ | v
      · rw [hcv] at hv
        exact absurd rfl hv
      · rw [hcv] at htok
        split at htok
        · exact absurd htok (by simp)
        · rename_i hhash
          exact ⟨v, rfl, by simpa using hhash⟩
  · intro hfal
    rw [if_pos hfal]
  · intro v hcv hvne hhash
    rw [if_neg (by simp [hcv, jsFalsy, hvne])]
    rw [if_pos (by simpa [hcv] using hhash)]

/-- C2 witness: with the stored challenge of `wRowPkce`, the wrong
nonempty verifier `"wrong-verifier"` is answered `invalid_grant`. -/
theorem pkce_validation_witness :
    (tokenEndpoint (fun s => s) (fun s => s) 0 "BT1" wPE [wRowPkce] []
        { grantType := some "authorization_code", code := some "AC2",
          codeVerifier := some "wrong-verifier",
          redirectUri := some "https://app.example/cb" }).2.2
      = .err "invalid_grant" 400 :=
  (pkce_validation (fun s => s) (fun s => s) 0 "BT1" wPE [wRowPkce] [] []
      { grantType := some "authorization_code", code := some "AC2",
        codeVerifier := some "wrong-verifier",
        redirectUri := some "https://app.example/cb" }
      { withingsCode := "WC2", clientId := none,
        redirectUri := "https://app.example/cb",
        codeChallenge := some "E9Melhoa2OwvFrEMTJguCHaoeK1t8URWbuGJSstw-cM" }
      "E9Melhoa2OwvFrEMTJguCHaoeK1t8URWbuGJSstw-cM"
      rfl (by decide) rfl (by decide) rfl).2.2
    "wrong-verifier" rfl (by decide) (by decide)

/-! ## Session/token binding at the MCP endpoint -/

/-- C4. For a live session, a subsequent `POST /mcp` request against
its session id presenting a bearer credential different from the one
stored at session creation is rejected with the 403 `forbidden` error
and the session table — in particular the session's channel — is left
untouched; and any request that does get its message pumped
(`202 accepted`) presented exactly the creation-time credential. -/
theorem mcp_post_session_binding (st : SessionTable) (sid : String)
    (rec : SessionRec) (bearer : String) (msg : Json)
    (hrec : getSessionT st sid = some rec) (hneq : bearer ≠ rec.mcpToken) :
    handleMcpPostExisting st sid bearer msg = (st, .err "forbidden" 403) ∧
    (∀ b, (handleMcpPostExisting st sid b msg).2 = .accepted →
       b = rec.mcpToken) := by
  constructor
  · unfold handleMcpPostExisting
    rw [hrec]
    dsimp only
    rw [if_pos (Ne.symm hneq)]
  · intro b hb
    unfold handleMcpPostExisting at hb
    rw [hrec] at hb
    dsimp only at hb
    by_cases h1 : rec.mcpToken ≠ b
    · rw [if_pos h1] at hb
      exact McpPostResult.noConfusion hb
    · push_neg at h1
      exact h1.symm

/-- C4 witness: a session bound to token `T1` rejects a post carrying
bearer token `T2` with 403 and an unchanged table. -/
theorem mcp_post_session_binding_witness :
    handleMcpPostExisting [("S1", { mcpToken := "T1", channel := [] })]
        "S1" "T2" Json.null
      = ([("S1", { mcpToken := "T1", channel := [] })], .err "forbidden" 403) :=
  (mcp_post_session_binding [("S1", { mcpToken := "T1", channel := [] })]
    "S1" { mcpToken := "T1", channel := [] } "T2" Json.null rfl (by decide)).1

/-! ## Vault update preserves the record TTL -/

/-- C8. When `updateTokens` succeeds, the new store is the old store
with only the row keyed by the bridge token rewritten, and that
rewrite touches exactly the two token ciphertexts, the provider user
id, the provider-token expiry and the `updated_at` stamp: every row's
`expires_at` deadline (the record's 30-day TTL set at store time) and
key are exactly as before — an update never extends or shortens when
the record itself expires. -/
theorem updateTokens_preserves_record_ttl
    (enc : String → String) (dec : String → Option String) (now : Int)
    (st : TokenStoreState) (tok : String) (updates : TokenUpdate)
    (st2 : TokenStoreState)
    (h : updateTokens enc dec now st tok updates = .ok st2) :
    (∃ u : TokenData, st2 = st.map (fun r =>
       if r.mcpToken = tok then
         { r with encryptedAccessToken := enc u.withingsAccessToken
                  encryptedRefreshToken := enc u.withingsRefreshToken
                  withingsUserId := u.withingsUserId
                  withingsExpiresAt := u.expiresAt
                  updatedAt := now }
       else r)) ∧
    st2.map McpTokenRow.expiresAt = st.map McpTokenRow.expiresAt ∧
    st2.map McpTokenRow.mcpToken = st.map McpTokenRow.mcpToken := by
  unfold updateTokens at h
  rcases hg : getTokens dec now st tok with e | od
  · rw [hg] at h
    exact Except.noConfusion h
  · rw [hg] at h
    cases od with
    | none => exact Except.noConfusion h
    | some existing =>
      dsimp only at h
      injection h with h2
      refine ⟨⟨{ withingsAccessToken :=
                   updates.withingsAccessToken.getD existing.withingsAccessToken
                 withingsRefreshToken :=
                   updates.withingsRefreshToken.getD existing.withingsRefreshToken
                 withingsUserId := updates.withingsUserId.getD existing.withingsUserId
                 expiresAt := updates.expiresAt.getD existing.expiresAt },
               h2.symm⟩, ?_, ?_⟩ <;>
      · rw [← h2, List.map_map]
        apply List.map_congr_left
        intro r _
        by_cases hr : r.mcpToken = tok <;> simp [hr, Function.comp]

/-- Vault row used for concrete evaluations. -/
def wTokRow : McpTokenRow :=
  { mcpToken := "BT1", encryptedAccessToken := "EA",
    encryptedRefreshToken := "ER", withingsUserId := "U1",
    withingsExpiresAt := 50, expiresAt := 100, updatedAt := 0 }

/-- The update passed by the refresh path for concrete evaluations. -/
def wUpd : TokenUpdate :=
  { withingsAccessToken := some "A2", withingsRefreshToken := some "R2",
    withingsUserId := none, expiresAt := some 75 }

/-- C8 witness: a concrete refresh-style update rewrites the token
fields of the row while its `expires_at = 100` and key survive. -/
theorem updateTokens_preserves_record_ttl_witness :
    (∃ u : TokenData,
       [{ mcpToken := "BT1", encryptedAccessToken := "A2",
          encryptedRefreshToken := "R2", withingsUserId := "U1",
          withingsExpiresAt := 75, expiresAt := 100,
          updatedAt := 0 : McpTokenRow }] = [wTokRow].map (fun r =>
         if r.mcpToken = "BT1" then
           { r with encryptedAccessToken := (fun s => s) u.withingsAccessToken
                    encryptedRefreshToken := (fun s => s) u.withingsRefreshToken
                    withingsUserId := u.withingsUserId
                    withingsExpiresAt := u.expiresAt
                    updatedAt := 0 }
         else r)) ∧
    [{ mcpToken := "BT1", encryptedAccessToken := "A2",
       encryptedRefreshToken := "R2", withingsUserId := "U1",
       withingsExpiresAt := 75, expiresAt := 100,
       updatedAt := 0 : McpTokenRow }].map McpTokenRow.expiresAt
      = [wTokRow].map McpTokenRow.expiresAt ∧
    [{ mcpToken := "BT1", encryptedAccessToken := "A2",
       encryptedRefreshToken := "R2", withingsUserId := "U1",
       withingsExpiresAt := 75, expiresAt := 100,
       updatedAt := 0 : McpTokenRow }].map McpTokenRow.mcpToken
      = [wTokRow].map McpTokenRow.mcpToken :=
  updateTokens_preserves_record_ttl (fun s => s) (fun s => some s) 0
    [wTokRow] "BT1" wUpd _ rfl

/-! ## Refresh-failure path of the provider client -/

/-- C9. When the cached provider token is within the 5-minute refresh
margin and the provider's refresh-token call fails, the stored vault
state is returned exactly as it was (no update is written), the
failure is surfaced as a thrown error, and the refresh grant was
attempted exactly once — no retry. -/
theorem refresh_failure_leaves_store
    (enc : String → String) (dec : String → Option String) (now : Int)
    (e : String) (apiCall : String → WithingsOutcome) (st : TokenStoreState)
    (tok : String) (td : TokenData)
    (hget : getTokens dec now st tok = .ok (some td))
    (hexp : td.expiresAt - now < expiryBufferMs) :
    makeWithingsRequest enc dec now (.error e) apiCall st tok
      = (st, .thrown ("Failed to refresh access token: " ++ e), 1) := by
  unfold makeWithingsRequest
  rw [hget]
  dsimp only
  rw [if_pos hexp]

/-- C9 witness: with a concrete store whose cached token expires in
50 ms and a failing refresh, the call leaves the store untouched,
throws, and attempted the refresh once. -/
theorem refresh_failure_leaves_store_witness :
    makeWithingsRequest (fun s => s) (fun s => some s) 0 (.error "boom")
        (fun _ => .body .null) [wTokRow] "BT1"
      = ([wTokRow], .thrown ("Failed to refresh access token: " ++ "boom"), 1) :=
  refresh_failure_leaves_store (fun s => s) (fun s => some s) 0 "boom"
    (fun _ => .body .null) [wTokRow] "BT1"
    { withingsAccessToken := "EA", withingsRefreshToken := "ER",
      withingsUserId := "U1", expiresAt := 50 }
    rfl (by decide)

/-! ## Tampered ciphertext fails closed by raising -/

/-- Salt drawn by `encrypt` for the concrete evaluation. -/
def wSalt : List Nat := List.replicate 32 1

/-- IV drawn by `encrypt` for the concrete evaluation. -/
def wIv : List Nat := List.replicate 16 2

/-- A stored ciphertext blob: `encrypt("ACCESS-TOKEN")`. -/
def wBlob : String := encryptModel toyPrims "master-secret" wSalt wIv "ACCESS-TOKEN"

/-- Flip the first character of a stored blob (one altered byte of the
stored encrypted token data). -/
def flipFirstChar (s : String) : String :=
  match s.data with
  | [] => ""
  | c :: rest => String.mk ((if c = 'A' then 'B' else 'A') :: rest)

/-- Vault row whose stored access-token ciphertext has one byte
altered. -/
def wTampRow : McpTokenRow :=
  { mcpToken := "BT1", encryptedAccessToken := flipFirstChar wBlob,
    encryptedRefreshToken := wBlob, withingsUserId := "U1",
    withingsExpiresAt := 50, expiresAt := 100, updatedAt := 0 }

set_option maxRecDepth 100000 in
/-- C6 counterexample. On a record whose stored ciphertext has one
altered byte, `getTokens` raises the decryption error out of the
store (there is no `try`/`catch` around `decrypt`): the result is the
propagated exception `.error ()`, not the "credential not found"
result `.ok none` the claim asserts. -/
theorem vault_tamper_counterexample :
    getTokens (decryptModel toyPrims "master-secret") 0 [wTampRow] "BT1"
        = .error () ∧
    getTokens (decryptModel toyPrims "master-secret") 0 [wTampRow] "BT1"
        ≠ .ok none := by
  have h1 : getTokens (decryptModel toyPrims "master-secret") 0 [wTampRow] "BT1"
      = .error () := by rfl
  exact ⟨h1, fun h => Except.noConfusion (h1.symm.trans h)⟩

/-- C6 (amended). Whenever the authenticated decryption of either
stored ciphertext of the record fails (tampering defeats the GCM tag
check), `getTokens` neither returns plaintext nor behaves as
"credential not found": it raises, propagating the decryption error
to its caller. -/
theorem vault_decrypt_failure_raises
    (p : CryptoPrims) (master : String) (now : Int) (st : TokenStoreState)
    (tok : String) (r : McpTokenRow)
    (hfind : findTokenRow now st tok = some r)
    (hfail : decryptModel p master r.encryptedAccessToken = none ∨
             decryptModel p master r.encryptedRefreshToken = none) :
    getTokens (decryptModel p master) now st tok = .error () := by
  unfold getTokens
  rw [hfind]
  dsimp only
  rcases hfail with hf | hf
  · rw [hf]
  · rcases h1 : decryptModel p master r.encryptedAccessToken with _ | a <;>
      rw [hf]

set_option maxRecDepth 100000 in
/-- C6 amended-theorem witness: the concrete tampered record raises. -/
theorem vault_decrypt_failure_raises_witness :
    getTokens (decryptModel toyPrims "master-secret") 0 [wTampRow] "BT1"
      = .error () :=
  vault_decrypt_failure_raises toyPrims "master-secret" 0 [wTampRow] "BT1"
    wTampRow rfl (Or.inl (by rfl))

/-! ## Rate limiter: the deployed check-and-increment races -/

/-- C5. Two concurrent `checkLimit` calls for the same identifier with
`maxRequests = 1` and a legal interleaving of their four store queries
are both told "allowed" — the claimed exactly-`N-1`-allowed bound is
violated because the read and the increment are separate queries. In
contrast, running the calls through one-at-a-time `checkLimit`, or
through the atomic SQL function `check_rate_limit` of migration 004
(which the TypeScript rate limiter never invokes), denies the second
call. -/
theorem rate_limit_race_not_atomic :
    ((checkLimitRace 0 { maxRequests := 1, windowMs := 3600000 }
        "ip:/token" []).2.1.allowed = true ∧
     (checkLimitRace 0 { maxRequests := 1, windowMs := 3600000 }
        "ip:/token" []).2.2.allowed = true) ∧
    (checkLimit 0 { maxRequests := 1, windowMs := 3600000 } "ip:/token"
        (checkLimit 0 { maxRequests := 1, windowMs := 3600000 }
          "ip:/token" []).1).2.allowed = false ∧
    (checkRateLimitSQL 0 "ip:/token" 1 3600000
        (checkRateLimitSQL 0 "ip:/token" 1 3600000 []).1).2.1 = false := by
  decide

/-! ## The atomic SQL function does satisfy the exactly-`N-1` bound

Since `check_rate_limit` locks the row `FOR UPDATE` inside one
transaction, a concurrent execution of `N` calls is equivalent to some
serialization; `runSQL` runs `k` serialized calls and counts the
"allowed" answers. -/

/-- Run `k` serialized `check_rate_limit` calls, returning the final
table and how many calls were answered "allowed". -/
def runSQL (now : Int) (id : String) (m : Nat) (w : Int) :
    Nat → List RateLimitRow → List RateLimitRow × Nat
  | 0, st => (st, 0)
  | k + 1, st =>
    let s1 := checkRateLimitSQL now id m w st
    let s2 := runSQL now id m w k s1.1
    (s2.1, (if s1.2.1 then 1 else 0) + s2.2)

theorem runSQL_window (now : Int) (id : String) (m : Nat) (w : Int)
    (hw : 0 ≤ w) (k : Nat) :
    ∀ c, 1 ≤ c → (runSQL now id m w k [⟨id, c, now + w⟩]).2 = min k (m - c) := by
  induction k with
  | zero => intro c _; simp [runSQL]
  | succ k ih =>
    intro c hc
    have hrow : getRateLimitRow [⟨id, c, now + w⟩] id = some ⟨id, c, now + w⟩ := by
      simp [getRateLimitRow]
    unfold runSQL checkRateLimitSQL
    rw [hrow]
    dsimp only
    rw [if_neg (by omega : ¬ now + w < now)]
    by_cases hm : m ≤ c
    · rw [if_pos hm]
      dsimp only
      rw [ih c hc]
      simp only [if_neg (by decide : ¬ false = true)]
      omega
    · rw [if_neg hm]
      dsimp only
      have hmap : [(⟨id, c, now + w⟩ : RateLimitRow)].map
          (fun r => if r.identifier = id then { r with requestCount := c + 1 } else r)
            = [⟨id, c + 1, now + w⟩] := by simp
      rw [hmap, ih (c + 1) (by omega)]
      rw [show (if true = true then (1 : Nat) else 0) = 1 from rfl]
      omega

/-- `m + 1` serialized calls of the atomic `check_rate_limit` with
`maxRequests = m` from a fresh window yield exactly `m` "allowed"
answers — the property the claim states, satisfied by the SQL function
the TypeScript limiter never calls. -/
theorem checkRateLimitSQL_exactly (now : Int) (id : String) (m : Nat) (w : Int)
    (hm : 1 ≤ m) (hw : 0 ≤ w) :
    (runSQL now id m w (m + 1) []).2 = m := by
  have hfirst : checkRateLimitSQL now id m w []
      = ([⟨id, 1, now + w⟩], (true, 1, now + w)) := by
    simp [checkRateLimitSQL, getRateLimitRow, upsertRateLimitRow]
  unfold runSQL
  rw [hfirst]
  dsimp only
  rw [runSQL_window now id m w hw m 1 (by omega)]
  rw [show (if true = true then (1 : Nat) else 0) = 1 from rfl]
  omega

/-- Witness for the serialized bound at `N = 3`, `maxRequests = 2`. -/
theorem checkRateLimitSQL_exactly_witness :
    (runSQL 0 "ip:/token" 2 3600000 3 []).2 = 2 :=
  checkRateLimitSQL_exactly 0 "ip:/token" 2 3600000 (by decide) (by decide)

set_option maxRecDepth 100000 in
/-- Sanity check of the vault encryption model: decrypting an
untampered stored blob recovers the stored plaintext. -/
theorem vault_roundtrip_concrete :
    decryptModel toyPrims "master-secret" wBlob = some "ACCESS-TOKEN" := by
  rfl

end WithingsMcp
